import Mathlib

/-!
Verification development for the fluid_sim_paint repository.

The embedding models `FluidSim` (src/src/canvas_mod/fluid_sim.rs) at two
levels:

1. A wiring level: the eight simulation textures created by
   `create_sim_textures`, the bind groups built in `FluidSim::new` (each
   recorded as the list of textures it binds as sampled inputs and the list
   it binds as write-only storage outputs, following the bind-group layouts
   in the pipeline modules), and the list of commands each `FluidSim` method
   records into the encoder.

2. A dataflow level: `SimState α` holds one value of an abstract payload
   type `α` per texture, and each compute kernel is an abstract function
   (the WGSL shader sources are not part of the snapshot); each `FluidSim`
   method becomes a state transformer that applies the kernels exactly
   according to the bind-group wiring and loop structure of the Rust code.

The advection kernel arithmetic needed for the mass/ink claim is modelled
separately from the specification text (§4.2), since the shader source is
absent.
-/

namespace FluidSimPaint

/-- The eight simulation textures returned by `create_sim_textures`. -/
inductive Tex where
  | densityA
  | densityB
  | velocityA
  | velocityB
  | divergence
  | pressureA
  | pressureB
  | tempDensity
deriving DecidableEq, Repr

/-- A bind group, recorded as the textures it binds as sampled inputs
(`reads`) and the textures it binds as write-only storage (`writes`),
following the `BindingType::Texture` / `BindingType::StorageTexture`
entries of the corresponding layout. -/
structure BindGroup where
  reads : List Tex
  writes : List Tex
deriving DecidableEq, Repr

/-- Wiring of `advect_bind_group`: reads `velocity_a` (binding 1) and `density_a`
(binding 2), writes `velocity_b` (binding 3) and `density_b` (binding 4). -/
def advect_bind_group : BindGroup :=
  ⟨[Tex.velocityA, Tex.densityA], [Tex.velocityB, Tex.densityB]⟩

/-- Wiring of `brush_bind_group`: reads `density_b` (binding 1) and `velocity_b`
(binding 3), writes `density_a` (binding 2) and `velocity_a` (binding 4). -/
def brush_bind_group : BindGroup :=
  ⟨[Tex.densityB, Tex.velocityB], [Tex.densityA, Tex.velocityA]⟩

/-- Wiring of `div_bind_group`: reads `velocity_a` (binding 1), writes `divergence`
(binding 2). -/
def div_bind_group : BindGroup :=
  ⟨[Tex.velocityA], [Tex.divergence]⟩

/-- The `create_jacobi` closure: reads the input pressure (binding 1) and
`divergence` (binding 2), writes the output pressure (binding 3). -/
def create_jacobi (in_p out_p : Tex) : BindGroup :=
  ⟨[in_p, Tex.divergence], [out_p]⟩

/-- Entry `jacobi_bind_groups[0]`: pressure A to B. -/
def jacobi_bg_0 : BindGroup := create_jacobi Tex.pressureA Tex.pressureB

/-- Entry `jacobi_bind_groups[1]`: pressure B to A. -/
def jacobi_bg_1 : BindGroup := create_jacobi Tex.pressureB Tex.pressureA

/-- The `jacobi_bind_groups` vector. -/
def jacobi_bind_groups : List BindGroup := [jacobi_bg_0, jacobi_bg_1]

/-- Wiring of `sub_bind_group`: reads `pressure_a` (binding 1, the final pressure)
and `velocity_a` (binding 2), writes `velocity_b` (binding 3). -/
def sub_bind_group : BindGroup :=
  ⟨[Tex.pressureA, Tex.velocityA], [Tex.velocityB]⟩

/-- The `create_diffuse_bg` closure: reads `x_in` (binding 1) and `b_in`
(binding 2, the stable source), writes `x_out` (binding 3). -/
def create_diffuse_bg (x_in b_in x_out : Tex) : BindGroup :=
  ⟨[x_in, b_in], [x_out]⟩

/-- Entry `diffuse_bind_groups[0]`: read A, source TEMP, write B. -/
def diffuse_bg_0 : BindGroup :=
  create_diffuse_bg Tex.densityA Tex.tempDensity Tex.densityB

/-- Entry `diffuse_bind_groups[1]`: read B, source TEMP, write A. -/
def diffuse_bg_1 : BindGroup :=
  create_diffuse_bg Tex.densityB Tex.tempDensity Tex.densityA

/-- The `diffuse_bind_groups` vector. -/
def diffuse_bind_groups : List BindGroup := [diffuse_bg_0, diffuse_bg_1]

/-- Every bind group constructed in `FluidSim::new`. -/
def allBindGroups : List BindGroup :=
  [advect_bind_group, brush_bind_group, div_bind_group,
   jacobi_bg_0, jacobi_bg_1, sub_bind_group, diffuse_bg_0, diffuse_bg_1]

/-- A command recorded into the `CommandEncoder` by a `FluidSim` method:
a compute-pass dispatch with a bind group, a `copy_texture_to_texture`,
or a `clear_texture`. -/
inductive Cmd where
  | dispatch (bg : BindGroup)
  | copyTex (src dst : Tex)
  | clearTex (t : Tex)
deriving DecidableEq, Repr

/-- Commands recorded by `FluidSim::diffuse`: nothing when
`viscosity <= 0.0`; otherwise the snapshot copy of `density_a` into
`temp_density` followed by 50 diffusion dispatches with bind group
index `i % 2`. -/
def diffuseCmds (viscosity : ℚ) : List Cmd :=
  if viscosity ≤ 0 then []
  else
    Cmd.copyTex Tex.densityA Tex.tempDensity ::
      (List.range 50).map
        (fun i => Cmd.dispatch (if i % 2 = 0 then diffuse_bg_0 else diffuse_bg_1))

/-- Commands recorded by `FluidSim::project`: the divergence dispatch, 40
Jacobi dispatches with bind group index `i % 2`, the gradient-subtract
dispatch, and the copy of `velocity_b` back into `velocity_a`. -/
def projectCmds : List Cmd :=
  Cmd.dispatch div_bind_group ::
    ((List.range 40).map
        (fun i => Cmd.dispatch (if i % 2 = 0 then jacobi_bg_0 else jacobi_bg_1))
      ++ [Cmd.dispatch sub_bind_group, Cmd.copyTex Tex.velocityB Tex.velocityA])

/-- Commands recorded by `FluidSim::advect`. -/
def advectCmds : List Cmd := [Cmd.dispatch advect_bind_group]

/-- Commands recorded by `FluidSim::add_forces`. -/
def addForcesCmds : List Cmd := [Cmd.dispatch brush_bind_group]

/-- Commands recorded by `FluidSim::clear`: `clear_texture` on the seven
textures it lists, in source order. -/
def clearCmds : List Cmd :=
  [Cmd.clearTex Tex.densityA, Cmd.clearTex Tex.densityB,
   Cmd.clearTex Tex.velocityA, Cmd.clearTex Tex.velocityB,
   Cmd.clearTex Tex.pressureA, Cmd.clearTex Tex.pressureB,
   Cmd.clearTex Tex.divergence]

/-- The contents of the eight simulation textures, one abstract payload
value per texture. -/
structure SimState (α : Type) where
  density_a : α
  density_b : α
  velocity_a : α
  velocity_b : α
  divergence : α
  pressure_a : α
  pressure_b : α
  temp_density : α
deriving DecidableEq, Repr

/-- The compute kernels, abstract: one function per shader, with one
argument per sampled input texture (uniform parameters are folded into
the function). `adv` maps (velocity in, density in) to (velocity out,
density out); `brush` maps (density in, velocity in) to (density out,
velocity out); `dif` maps (x in, b in) to x out; `jac` maps (pressure in,
divergence) to pressure out; `div` maps velocity to divergence; `sub`
maps (pressure, velocity) to velocity out. -/
structure Kernels (α : Type) where
  adv : α → α → α × α
  brush : α → α → α × α
  dif : α → α → α
  jac : α → α → α
  div : α → α
  sub : α → α → α

variable {α : Type}

/-- Method `FluidSim::advect`: one dispatch of the advection kernel through
`advect_bind_group`, reading `velocity_a`, `density_a` and writing
`velocity_b`, `density_b`. -/
def advect (K : Kernels α) (s : SimState α) : SimState α :=
  { s with
    velocity_b := (K.adv s.velocity_a s.density_a).1
    density_b := (K.adv s.velocity_a s.density_a).2 }

/-- Method `FluidSim::add_forces`: one dispatch of the brush kernel through
`brush_bind_group`, reading `density_b`, `velocity_b` and writing
`density_a`, `velocity_a`. -/
def add_forces (K : Kernels α) (s : SimState α) : SimState α :=
  { s with
    density_a := (K.brush s.density_b s.velocity_b).1
    velocity_a := (K.brush s.density_b s.velocity_b).2 }

/-- One iteration of the pressure Jacobi loop in `FluidSim::project`:
`in_index = i % 2` selects `jacobi_bind_groups[0]` (read `pressure_a`,
write `pressure_b`) or `jacobi_bind_groups[1]` (read `pressure_b`, write
`pressure_a`); both read `divergence`. -/
def jacobiStep (K : Kernels α) (i : ℕ) (s : SimState α) : SimState α :=
  if i % 2 = 0 then { s with pressure_b := K.jac s.pressure_a s.divergence }
  else { s with pressure_a := K.jac s.pressure_b s.divergence }

/-- The first `n` iterations of the `for i in 0..40` Jacobi loop. -/
def jacobiRounds (K : Kernels α) : ℕ → SimState α → SimState α
  | 0, s => s
  | n + 1, s => jacobiStep K n (jacobiRounds K n s)

/-- Method `FluidSim::project`: divergence dispatch, 40 Jacobi iterations, the
gradient-subtract dispatch writing `velocity_b`, then the copy of
`velocity_b` back into `velocity_a`. -/
def project (K : Kernels α) (s : SimState α) : SimState α :=
  let s1 := { s with divergence := K.div s.velocity_a }
  let s2 := jacobiRounds K 40 s1
  let s3 := { s2 with velocity_b := K.sub s2.pressure_a s2.velocity_a }
  { s3 with velocity_a := s3.velocity_b }

/-- One iteration of the diffusion loop in `FluidSim::diffuse`:
`idx = i % 2` selects `diffuse_bind_groups[0]` (read `density_a`, write
`density_b`) or `diffuse_bind_groups[1]` (read `density_b`, write
`density_a`); both read `temp_density` as the stable source. -/
def diffuseStep (K : Kernels α) (i : ℕ) (s : SimState α) : SimState α :=
  if i % 2 = 0 then { s with density_b := K.dif s.density_a s.temp_density }
  else { s with density_a := K.dif s.density_b s.temp_density }

/-- The first `n` iterations of the `for i in 0..50` diffusion loop. -/
def diffRounds (K : Kernels α) : ℕ → SimState α → SimState α
  | 0, s => s
  | n + 1, s => diffuseStep K n (diffRounds K n s)

/-- Method `FluidSim::diffuse`: early return when `viscosity <= 0.0`; otherwise
copy `density_a` into `temp_density` and run 50 diffusion iterations. -/
def diffuse (K : Kernels α) (viscosity : ℚ) (s : SimState α) : SimState α :=
  if viscosity ≤ 0 then s
  else diffRounds K 50 { s with temp_density := s.density_a }

/-- Method `FluidSim::clear`: `clear_texture` (which fills a texture with zeros,
here the payload value `z`) on `density_a`, `density_b`, `velocity_a`,
`velocity_b`, `pressure_a`, `pressure_b` and `divergence` — and on no
other texture. -/
def clear (z : α) (s : SimState α) : SimState α :=
  { s with
    density_a := z
    density_b := z
    velocity_a := z
    velocity_b := z
    pressure_a := z
    pressure_b := z
    divergence := z }

/-- Modelled from the spec: "pressure ... reset to 0 at the start of each
projection" and "initial pressure = 0" (§3, §4.4). A variant of `project`
that first resets both pressure slots to the zero value `z`, used to
compare the specified behaviour with the code's. -/
def projectWithReset (K : Kernels α) (z : α) (s : SimState α) : SimState α :=
  project K { s with pressure_a := z, pressure_b := z }

/-- A concrete kernel set over `ℕ` used to evaluate the embedding on
concrete states. -/
def Kn : Kernels ℕ :=
  ⟨fun v d => (v, d), fun d v => (d, v), fun x b => x + b,
   fun p _ => p, fun v => v, fun p v => p + v⟩

/-- A concrete state whose `pressure_a` slot is nonzero, standing for the
pressure left behind by a previous frame. -/
def sWarm : SimState ℕ := ⟨0, 0, 0, 0, 0, 1, 0, 0⟩

/-- A concrete state whose `temp_density` slot is nonzero. -/
def sTempOne : SimState ℕ := ⟨0, 0, 0, 0, 0, 0, 0, 1⟩

/-- A generic concrete state with pairwise distinct field values. -/
def sGen : SimState ℕ := ⟨1, 2, 3, 4, 5, 6, 7, 8⟩

/-! ### Preservation lemmas for the iteration loops -/

theorem jacobiStep_density_a (K : Kernels α) (i : ℕ) (s : SimState α) :
    (jacobiStep K i s).density_a = s.density_a := by
  unfold jacobiStep; split <;> rfl

theorem jacobiStep_velocity_a (K : Kernels α) (i : ℕ) (s : SimState α) :
    (jacobiStep K i s).velocity_a = s.velocity_a := by
  unfold jacobiStep; split <;> rfl

theorem jacobiStep_divergence (K : Kernels α) (i : ℕ) (s : SimState α) :
    (jacobiStep K i s).divergence = s.divergence := by
  unfold jacobiStep; split <;> rfl

theorem jacobiRounds_density_a (K : Kernels α) (n : ℕ) (s : SimState α) :
    (jacobiRounds K n s).density_a = s.density_a := by
  induction n with
  | zero => rfl
  | succ n ih => rw [jacobiRounds, jacobiStep_density_a, ih]

theorem jacobiRounds_velocity_a (K : Kernels α) (n : ℕ) (s : SimState α) :
    (jacobiRounds K n s).velocity_a = s.velocity_a := by
  induction n with
  | zero => rfl
  | succ n ih => rw [jacobiRounds, jacobiStep_velocity_a, ih]

theorem jacobiRounds_divergence (K : Kernels α) (n : ℕ) (s : SimState α) :
    (jacobiRounds K n s).divergence = s.divergence := by
  induction n with
  | zero => rfl
  | succ n ih => rw [jacobiRounds, jacobiStep_divergence, ih]

theorem diffuseStep_temp_density (K : Kernels α) (i : ℕ) (s : SimState α) :
    (diffuseStep K i s).temp_density = s.temp_density := by
  unfold diffuseStep; split <;> rfl

theorem diffRounds_temp_density (K : Kernels α) (n : ℕ) (s : SimState α) :
    (diffRounds K n s).temp_density = s.temp_density := by
  induction n with
  | zero => rfl
  | succ n ih => rw [diffRounds, diffuseStep_temp_density, ih]

/-- The first Jacobi iteration overwrites `pressure_b` without reading it,
so the whole loop is insensitive to the incoming `pressure_b`. -/
theorem jacobiRounds_pb_irrel (K : Kernels α) (q : α) (s : SimState α) (n : ℕ) :
    jacobiRounds K (n + 1) { s with pressure_b := q } = jacobiRounds K (n + 1) s := by
  induction n with
  | zero =>
      show jacobiStep K 0 { s with pressure_b := q } = jacobiStep K 0 s
      cases s; rfl
  | succ n ih =>
      show jacobiStep K (n + 1) (jacobiRounds K (n + 1) { s with pressure_b := q })
          = jacobiStep K (n + 1) (jacobiRounds K (n + 1) s)
      rw [ih]

/-- The projection writes only divergence, pressure and velocity: the
authoritative density slot is untouched. -/
theorem project_density_a (K : Kernels α) (s : SimState α) :
    (project K s).density_a = s.density_a := by
  show (jacobiRounds K 40 { s with divergence := K.div s.velocity_a }).density_a = s.density_a
  rw [jacobiRounds_density_a]

/-! ### Claim theorems -/

/-- C1 (counterexample): the claim that every `project` behaves as if the
pressure were reset to 0 before the Jacobi relaxation fails on the code:
with a concrete kernel set and a state whose `pressure_a` slot still holds
the previous frame's pressure 1, `project` and its reset-first variant
disagree. -/
theorem project_pressure_reset_refuted :
    project Kn sWarm ≠ projectWithReset Kn 0 sWarm := by decide

/-- C1 (amended): `project` never resets the pressure. The first Jacobi
iteration reads `pressure_a` exactly as the previous frame left it (a warm
start), and the result of `project` is insensitive to the stale
`pressure_b` only because that slot is overwritten before it is first
read. -/
theorem project_pressure_warm_start (K : Kernels α) (q : α) (s : SimState α) :
    jacobiStep K 0 { s with divergence := K.div s.velocity_a }
        = { s with divergence := K.div s.velocity_a,
                   pressure_b := K.jac s.pressure_a (K.div s.velocity_a) }
      ∧ project K { s with pressure_b := q } = project K s := by
  constructor
  · cases s; rfl
  · cases s with
    | mk da db va vb dv pa pb td =>
      show project K ⟨da, db, va, vb, dv, pa, q, td⟩
          = project K ⟨da, db, va, vb, dv, pa, pb, td⟩
      unfold project
      have h := jacobiRounds_pb_irrel K q
        (⟨da, db, va, vb, K.div va, pa, pb, td⟩ : SimState α) 39
      simp only at h
      simp only [h]

/-- C2 (counterexample): the claim that `clear` zeroes every field
including the scratch copy fails on the code: `FluidSim::clear` does not
clear `temp_density`, so clearing a state whose scratch slot holds 1
leaves it at 1. -/
theorem clear_leaves_temp_density :
    (clear (0 : ℕ) sTempOne).temp_density ≠ 0 := by decide

/-- C2 (amended): `clear` zeroes `density_a`, `density_b`, `velocity_a`,
`velocity_b`, `pressure_a`, `pressure_b` and `divergence` without
reallocating, but leaves the scratch copy `temp_density` unchanged;
no `clear_texture` command is recorded for `temp_density`. -/
theorem clear_zeroes_all_but_temp (z : α) (s : SimState α) :
    (clear z s).density_a = z ∧ (clear z s).density_b = z
      ∧ (clear z s).velocity_a = z ∧ (clear z s).velocity_b = z
      ∧ (clear z s).pressure_a = z ∧ (clear z s).pressure_b = z
      ∧ (clear z s).divergence = z
      ∧ (clear z s).temp_density = s.temp_density
      ∧ Cmd.clearTex Tex.tempDensity ∉ clearCmds :=
  ⟨rfl, rfl, rfl, rfl, rfl, rfl, rfl, rfl, by decide⟩

/-- C3: the gradient-subtract stage writes the corrected velocity
(computed from the final pressure in `pressure_a` and the pre-projection
`velocity_a`) into `velocity_b`, and `project` ends with a mandatory copy
of `velocity_b` back into `velocity_a`; hence after every `project` the
two velocity slots agree and `velocity_a` holds the corrected velocity. -/
theorem project_copies_corrected_velocity_back (K : Kernels α) (s : SimState α) :
    (project K s).velocity_a = (project K s).velocity_b
      ∧ (project K s).velocity_b
          = K.sub (jacobiRounds K 40 { s with divergence := K.div s.velocity_a }).pressure_a
              s.velocity_a
      ∧ sub_bind_group.writes = [Tex.velocityB]
      ∧ Cmd.copyTex Tex.velocityB Tex.velocityA ∈ projectCmds := by
  refine ⟨rfl, ?_, rfl, by decide⟩
  show K.sub _ (jacobiRounds K 40 { s with divergence := K.div s.velocity_a }).velocity_a
      = K.sub _ s.velocity_a
  rw [jacobiRounds_velocity_a]

/-- C4: diffusion runs a fixed even number (50) of Jacobi iterations, even
iterations reading `density_a` and writing `density_b` and odd iterations
the reverse; because the count is even the final write of iteration 49
lands in `density_a` (holding the relaxation of the iterate in `density_b`
against the snapshot `s.density_a`), and `diffuse` performs no copy-back
after the loop. -/
theorem diffuse_even_iterations_end_in_density_a
    (K : Kernels α) (v : ℚ) (s : SimState α) (hv : 0 < v) :
    diffuse K v s = diffRounds K 50 { s with temp_density := s.density_a }
      ∧ (∀ i t, diffuseStep K i t
          = if i % 2 = 0 then { t with density_b := K.dif t.density_a t.temp_density }
            else { t with density_a := K.dif t.density_b t.temp_density })
      ∧ (50 : ℕ) % 2 = 0
      ∧ (diffuse K v s).density_a
          = K.dif (diffRounds K 49 { s with temp_density := s.density_a }).density_b
              s.density_a := by
  have hne : ¬ v ≤ 0 := not_le.mpr hv
  have hdef : diffuse K v s = diffRounds K 50 { s with temp_density := s.density_a } := by
    rw [diffuse, if_neg hne]
  refine ⟨hdef, fun i t => rfl, rfl, ?_⟩
  rw [hdef]
  show (diffuseStep K 49 (diffRounds K 49 { s with temp_density := s.density_a })).density_a
      = _
  rw [diffuseStep, if_neg (by decide)]
  show K.dif _ (diffRounds K 49 { s with temp_density := s.density_a }).temp_density = _
  rw [diffRounds_temp_density]

/-- C4 witness at a concrete kernel set, viscosity 1 and state. -/
theorem diffuse_even_iterations_end_in_density_a_w :
    (0 : ℚ) < 1
      ∧ (diffuse Kn 1 sGen = diffRounds Kn 50 { sGen with temp_density := sGen.density_a }
          ∧ (∀ i t, diffuseStep Kn i t
              = if i % 2 = 0 then { t with density_b := Kn.dif t.density_a t.temp_density }
                else { t with density_a := Kn.dif t.density_b t.temp_density })
          ∧ (50 : ℕ) % 2 = 0
          ∧ (diffuse Kn 1 sGen).density_a
              = Kn.dif (diffRounds Kn 49 { sGen with temp_density := sGen.density_a }).density_b
                  sGen.density_a) :=
  ⟨by norm_num, diffuse_even_iterations_end_in_density_a Kn 1 sGen (by norm_num)⟩

/-- C5: the pressure relaxation in `project` runs exactly 40 alternating
iterations, iteration `i` reading the slot of parity `i % 2` and writing
the other, starting by reading `pressure_a` and writing `pressure_b`; the
last (odd-indexed) iteration writes `pressure_a`, which is exactly the
slot the gradient-subtract stage reads as the final pressure, and
`project` performs no pressure copy-back. -/
theorem pressure_relax_forty_iterations_slot_agreement (K : Kernels α) (s : SimState α) :
    (∀ i t, jacobiStep K i t
        = if i % 2 = 0 then { t with pressure_b := K.jac t.pressure_a t.divergence }
          else { t with pressure_a := K.jac t.pressure_b t.divergence })
      ∧ (40 : ℕ) % 2 = 0
      ∧ (jacobiRounds K 40 { s with divergence := K.div s.velocity_a }).pressure_a
          = K.jac (jacobiRounds K 39 { s with divergence := K.div s.velocity_a }).pressure_b
              (K.div s.velocity_a)
      ∧ (project K s).pressure_a
          = (jacobiRounds K 40 { s with divergence := K.div s.velocity_a }).pressure_a
      ∧ (project K s).velocity_b
          = K.sub (jacobiRounds K 40 { s with divergence := K.div s.velocity_a }).pressure_a
              s.velocity_a := by
  refine ⟨fun i t => rfl, rfl, ?_, rfl, ?_⟩
  · show (jacobiStep K 39 (jacobiRounds K 39 { s with divergence := K.div s.velocity_a })).pressure_a
        = _
    rw [jacobiStep, if_neg (by decide)]
    show K.jac _ (jacobiRounds K 39 { s with divergence := K.div s.velocity_a }).divergence = _
    rw [jacobiRounds_divergence]
  · show K.sub _ (jacobiRounds K 40 { s with divergence := K.div s.velocity_a }).velocity_a
        = K.sub _ s.velocity_a
    rw [jacobiRounds_velocity_a]

/-- C6: with `viscosity <= 0`, `diffuse` returns immediately: the state is
unchanged in every field and no compute or copy command is recorded. -/
theorem diffuse_skipped_when_viscosity_nonpositive
    (K : Kernels α) (v : ℚ) (s : SimState α) (hv : v ≤ 0) :
    diffuse K v s = s ∧ diffuseCmds v = [] := by
  constructor
  · rw [diffuse, if_pos hv]
  · rw [diffuseCmds, if_pos hv]

/-- C6 witness at viscosity 0. -/
theorem diffuse_skipped_when_viscosity_nonpositive_w :
    (0 : ℚ) ≤ 0 ∧ (diffuse Kn 0 sGen = sGen ∧ diffuseCmds 0 = []) :=
  ⟨le_refl 0, diffuse_skipped_when_viscosity_nonpositive Kn 0 sGen (le_refl 0)⟩

/-- C7: when diffusion runs, it first snapshots `density_a` into
`temp_density`, every iteration reads that snapshot as its source term
(both diffusion bind groups bind `temp_density` as an input, and neither
writes it), and the snapshot survives unchanged through any number of
relaxation iterations. -/
theorem diffuse_snapshot_stable (K : Kernels α) (v : ℚ) (s : SimState α) (hv : 0 < v) :
    diffuse K v s = diffRounds K 50 { s with temp_density := s.density_a }
      ∧ (∀ i t, diffuseStep K i t
          = if i % 2 = 0 then { t with density_b := K.dif t.density_a t.temp_density }
            else { t with density_a := K.dif t.density_b t.temp_density })
      ∧ (∀ n, (diffRounds K n { s with temp_density := s.density_a }).temp_density
          = s.density_a)
      ∧ Tex.tempDensity ∈ diffuse_bg_0.reads ∧ Tex.tempDensity ∈ diffuse_bg_1.reads
      ∧ Tex.tempDensity ∉ diffuse_bg_0.writes ∧ Tex.tempDensity ∉ diffuse_bg_1.writes := by
  refine ⟨by rw [diffuse, if_neg (not_le.mpr hv)], fun i t => rfl, fun n => ?_,
    by decide, by decide, by decide, by decide⟩
  rw [diffRounds_temp_density]

/-- C7 witness at a concrete kernel set, viscosity 1 and state. -/
theorem diffuse_snapshot_stable_w :
    (0 : ℚ) < 1
      ∧ (diffuse Kn 1 sGen = diffRounds Kn 50 { sGen with temp_density := sGen.density_a }
          ∧ (∀ i t, diffuseStep Kn i t
              = if i % 2 = 0 then { t with density_b := Kn.dif t.density_a t.temp_density }
                else { t with density_a := Kn.dif t.density_b t.temp_density })
          ∧ (∀ n, (diffRounds Kn n { sGen with temp_density := sGen.density_a }).temp_density
              = sGen.density_a)
          ∧ Tex.tempDensity ∈ diffuse_bg_0.reads ∧ Tex.tempDensity ∈ diffuse_bg_1.reads
          ∧ Tex.tempDensity ∉ diffuse_bg_0.writes ∧ Tex.tempDensity ∉ diffuse_bg_1.writes) :=
  ⟨by norm_num, diffuse_snapshot_stable Kn 1 sGen (by norm_num)⟩

/-- C8: every bind group built in `FluidSim::new` binds disjoint texture
sets as inputs and outputs: no texture appears both among a bind group's
sampled inputs and its storage outputs. -/
theorem bind_groups_input_output_disjoint :
    ∀ bg ∈ allBindGroups, ∀ t ∈ bg.reads, t ∉ bg.writes := by decide

/-- C8 witness at the advection bind group and `velocity_a`. -/
theorem bind_groups_input_output_disjoint_w :
    advect_bind_group ∈ allBindGroups
      ∧ Tex.velocityA ∈ advect_bind_group.reads
      ∧ Tex.velocityA ∉ advect_bind_group.writes :=
  ⟨by decide, by decide,
    bind_groups_input_output_disjoint advect_bind_group (by decide) Tex.velocityA (by decide)⟩

/-- C10: `advect` reads the A slots and writes both results to the B
slots, leaving the A slots untouched; `add_forces` reads the B slots and
writes the A slots, leaving the B slots untouched; on a frame where
`add_forces` is skipped, an advect-then-project sequence leaves
`density_a` with its pre-advection (stale) contents, and no `FluidSim`
method records a texture copy into `density_a`. -/
theorem advect_brush_slot_wiring (K : Kernels α) (s : SimState α) :
    (advect K s).density_a = s.density_a
      ∧ (advect K s).velocity_a = s.velocity_a
      ∧ (advect K s).velocity_b = (K.adv s.velocity_a s.density_a).1
      ∧ (advect K s).density_b = (K.adv s.velocity_a s.density_a).2
      ∧ (add_forces K s).density_a = (K.brush s.density_b s.velocity_b).1
      ∧ (add_forces K s).velocity_a = (K.brush s.density_b s.velocity_b).2
      ∧ (add_forces K s).density_b = s.density_b
      ∧ (add_forces K s).velocity_b = s.velocity_b
      ∧ (project K (advect K s)).density_a = s.density_a
      ∧ (∀ v src, Cmd.copyTex src Tex.densityA ∉ diffuseCmds v)
      ∧ (∀ src, Cmd.copyTex src Tex.densityA ∉ projectCmds)
      ∧ (∀ src, Cmd.copyTex src Tex.densityA ∉ advectCmds)
      ∧ (∀ src, Cmd.copyTex src Tex.densityA ∉ addForcesCmds)
      ∧ (∀ src, Cmd.copyTex src Tex.densityA ∉ clearCmds) := by
  refine ⟨rfl, rfl, rfl, rfl, rfl, rfl, rfl, rfl, ?_, ?_, ?_, ?_, ?_, ?_⟩
  · rw [project_density_a]
    rfl
  · intro v src
    by_cases hv : v ≤ 0
    · simp [diffuseCmds, hv]
    · simp [diffuseCmds, hv]
  · intro src
    simp [projectCmds]
  · intro src
    simp [advectCmds]
  · intro src
    simp [addForcesCmds]
  · intro src
    simp [clearCmds]

/-! ### Spec-modelled advection arithmetic

The advection shader (`advect.wgsl`) is referenced by the pipeline module
but its source is not part of the snapshot, so the per-cell arithmetic is
modelled from the specification, §4.2. -/

/-- Modelled from the spec: clamping a coordinate to `[lo, hi]`
(the `ClampToEdge` address mode; "clamped to grid bounds"). -/
def clampQ (lo hi x : ℚ) : ℚ := max lo (min x hi)

/-- Modelled from the spec: an integer index clamped into the valid cell
range `0 .. w` ("sampling outside the grid clamps to the nearest boundary
cell"). -/
def toIdx (w : ℕ) (i : ℤ) : Fin (w + 1) :=
  ⟨min (max i 0).toNat w, Nat.lt_succ_of_le (Nat.min_le_right _ _)⟩

/-- Modelled from the spec: bilinear sampling of a scalar grid at a
position clamped to the grid bounds (§4.2: "bilinearly sample ... at `p`
(clamped to grid bounds)"). The four neighbouring cells are weighted by
the fractional parts of the clamped position. -/
def bilin (w h : ℕ) (d : Fin (w + 1) → Fin (h + 1) → ℚ) (px py : ℚ) : ℚ :=
  (1 - Int.fract (clampQ 0 w px)) * (1 - Int.fract (clampQ 0 h py))
      * d (toIdx w ⌊clampQ 0 w px⌋) (toIdx h ⌊clampQ 0 h py⌋)
    + Int.fract (clampQ 0 w px) * (1 - Int.fract (clampQ 0 h py))
      * d (toIdx w (⌊clampQ 0 w px⌋ + 1)) (toIdx h ⌊clampQ 0 h py⌋)
    + (1 - Int.fract (clampQ 0 w px)) * Int.fract (clampQ 0 h py)
      * d (toIdx w ⌊clampQ 0 w px⌋) (toIdx h (⌊clampQ 0 h py⌋ + 1))
    + Int.fract (clampQ 0 w px) * Int.fract (clampQ 0 h py)
      * d (toIdx w (⌊clampQ 0 w px⌋ + 1)) (toIdx h (⌊clampQ 0 h py⌋ + 1))

/-- Modelled from the spec: semi-Lagrangian advection of the density
field (§4.2: source position `p = (x,y) - dt * velocity_in(x,y)`,
bilinear sample of `density_in` at `p`, multiplied by `ink_decay`). -/
def advectD (w h : ℕ) (dt idec : ℚ) (v : Fin (w + 1) → Fin (h + 1) → ℚ × ℚ)
    (d : Fin (w + 1) → Fin (h + 1) → ℚ) : Fin (w + 1) → Fin (h + 1) → ℚ :=
  fun x y =>
    idec * bilin w h d (((x : ℕ) : ℚ) - dt * (v x y).1) (((y : ℕ) : ℚ) - dt * (v x y).2)

/-- Modelled from the spec: semi-Lagrangian advection of the velocity
field (same backtrace, component-wise bilinear sample of `velocity_in`,
multiplied by `velocity_decay`). -/
def advectV (w h : ℕ) (dt vdec : ℚ) (v : Fin (w + 1) → Fin (h + 1) → ℚ × ℚ) :
    Fin (w + 1) → Fin (h + 1) → ℚ × ℚ :=
  fun x y =>
    (vdec * bilin w h (fun i j => (v i j).1)
        (((x : ℕ) : ℚ) - dt * (v x y).1) (((y : ℕ) : ℚ) - dt * (v x y).2),
     vdec * bilin w h (fun i j => (v i j).2)
        (((x : ℕ) : ℚ) - dt * (v x y).1) (((y : ℕ) : ℚ) - dt * (v x y).2))

/-- Modelled from the spec: one advection-only step, transporting both
velocity and density along the current velocity field. -/
def advectStep (w h : ℕ) (dt vdec idec : ℚ)
    (s : (Fin (w + 1) → Fin (h + 1) → ℚ × ℚ) × (Fin (w + 1) → Fin (h + 1) → ℚ)) :
    (Fin (w + 1) → Fin (h + 1) → ℚ × ℚ) × (Fin (w + 1) → Fin (h + 1) → ℚ) :=
  (advectV w h dt vdec s.1, advectD w h dt idec s.1 s.2)

/-- Total density over the grid. -/
def totalDensity (w h : ℕ) (d : Fin (w + 1) → Fin (h + 1) → ℚ) : ℚ :=
  ∑ x : Fin (w + 1), ∑ y : Fin (h + 1), d x y

/-- A velocity field on a 2 by 1 grid whose right cell backtraces exactly
onto the left cell at `dt = 0.016`. -/
def vCex : Fin 2 → Fin 1 → ℚ × ℚ :=
  fun x _ => if (x : ℕ) = 0 then (0, 0) else (125 / 2, 0)

/-- A density field on a 2 by 1 grid concentrated in the left cell. -/
def dCex : Fin 2 → Fin 1 → ℚ :=
  fun x _ => if (x : ℕ) = 0 then 1 else 0

/-- A uniform state on a 1 by 1 grid: zero velocity, density 1. -/
def vdCex : (Fin 1 → Fin 1 → ℚ × ℚ) × (Fin 1 → Fin 1 → ℚ) :=
  (fun _ _ => (0, 0), fun _ _ => 1)

theorem clampQ_zero (w : ℕ) : clampQ 0 (w : ℚ) 0 = 0 := by
  unfold clampQ
  rw [min_eq_left (Nat.cast_nonneg w), max_self]

theorem toIdx_zero (w : ℕ) : toIdx w 0 = 0 := by
  apply Fin.ext
  simp [toIdx]

/-- Sampling exactly at the corner cell returns that cell's value. -/
theorem bilin_at_zero (w h : ℕ) (d : Fin (w + 1) → Fin (h + 1) → ℚ) :
    bilin w h d 0 0 = d 0 0 := by
  unfold bilin
  rw [clampQ_zero w, clampQ_zero h, Int.fract_zero, Int.floor_zero, toIdx_zero, toIdx_zero]
  ring

/-- A convex combination of four values, with bilinear weights, stays
within any bound that dominates all four values. -/
theorem convex4_abs_le (a b M d00 d10 d01 d11 : ℚ)
    (ha0 : 0 ≤ a) (ha1 : a ≤ 1) (hb0 : 0 ≤ b) (hb1 : b ≤ 1)
    (h00 : |d00| ≤ M) (h10 : |d10| ≤ M) (h01 : |d01| ≤ M) (h11 : |d11| ≤ M) :
    |(1 - a) * (1 - b) * d00 + a * (1 - b) * d10
        + (1 - a) * b * d01 + a * b * d11| ≤ M := by
  have hw00 : (0 : ℚ) ≤ (1 - a) * (1 - b) :=
    mul_nonneg (by linarith) (by linarith)
  have hw10 : (0 : ℚ) ≤ a * (1 - b) := mul_nonneg ha0 (by linarith)
  have hw01 : (0 : ℚ) ≤ (1 - a) * b := mul_nonneg (by linarith) hb0
  have hw11 : (0 : ℚ) ≤ a * b := mul_nonneg ha0 hb0
  obtain ⟨l00, r00⟩ := abs_le.mp h00
  obtain ⟨l10, r10⟩ := abs_le.mp h10
  obtain ⟨l01, r01⟩ := abs_le.mp h01
  obtain ⟨l11, r11⟩ := abs_le.mp h11
  rw [abs_le]
  constructor
  · nlinarith [mul_le_mul_of_nonneg_left l00 hw00, mul_le_mul_of_nonneg_left l10 hw10,
      mul_le_mul_of_nonneg_left l01 hw01, mul_le_mul_of_nonneg_left l11 hw11]
  · nlinarith [mul_le_mul_of_nonneg_left r00 hw00, mul_le_mul_of_nonneg_left r10 hw10,
      mul_le_mul_of_nonneg_left r01 hw01, mul_le_mul_of_nonneg_left r11 hw11]

/-- Bilinear sampling never exceeds a uniform bound on the grid. -/
theorem abs_bilin_le (w h : ℕ) (d : Fin (w + 1) → Fin (h + 1) → ℚ) (M : ℚ)
    (hM : ∀ x y, |d x y| ≤ M) (px py : ℚ) : |bilin w h d px py| ≤ M := by
  unfold bilin
  exact convex4_abs_le _ _ M _ _ _ _
    (Int.fract_nonneg _) (le_of_lt (Int.fract_lt_one _))
    (Int.fract_nonneg _) (le_of_lt (Int.fract_lt_one _))
    (hM _ _) (hM _ _) (hM _ _) (hM _ _)

/-- One density advection multiplies the uniform bound by `ink_decay`. -/
theorem abs_advectD_le (w h : ℕ) (dt idec M : ℚ)
    (v : Fin (w + 1) → Fin (h + 1) → ℚ × ℚ) (d : Fin (w + 1) → Fin (h + 1) → ℚ)
    (hM : ∀ x y, |d x y| ≤ M) (h0 : 0 ≤ idec) :
    ∀ x y, |advectD w h dt idec v d x y| ≤ idec * M := by
  intro x y
  unfold advectD
  rw [abs_mul, abs_of_nonneg h0]
  exact mul_le_mul_of_nonneg_left (abs_bilin_le w h d M hM _ _) h0

/-- Iterating advection-only steps keeps the density bounded by
`ink_decay ^ n` times the initial bound, whatever the velocity field
does. -/
theorem advect_iter_bound (w h : ℕ) (dt vdec idec : ℚ) (h0 : 0 ≤ idec) :
    ∀ (n : ℕ) (M : ℚ)
      (s : (Fin (w + 1) → Fin (h + 1) → ℚ × ℚ) × (Fin (w + 1) → Fin (h + 1) → ℚ)),
      (∀ x y, |s.2 x y| ≤ M) →
      ∀ x y, |((advectStep w h dt vdec idec)^[n] s).2 x y| ≤ idec ^ n * M := by
  intro n
  induction n with
  | zero =>
      intro M s hM x y
      simpa using hM x y
  | succ n ih =>
      intro M s hM x y
      rw [Function.iterate_succ_apply]
      have hstep : ∀ x y, |(advectStep w h dt vdec idec s).2 x y| ≤ idec * M :=
        abs_advectD_le w h dt idec M s.1 s.2 hM h0
      calc |((advectStep w h dt vdec idec)^[n] (advectStep w h dt vdec idec s)).2 x y|
          ≤ idec ^ n * (idec * M) := ih (idec * M) (advectStep w h dt vdec idec s) hstep x y
        _ = idec ^ (n + 1) * M := by ring

/-- C9 (counterexample): the claim that repeated advection-only steps with
`ink_decay < 1` never increase the total density sum fails on the model:
on a 2 by 1 grid with `dt = 0.016`, `ink_decay = 0.9` and a velocity field
that backtraces both cells onto the left cell, one advection step raises
the total density from 1 to 1.8. -/
theorem advect_total_density_not_monotone :
    totalDensity 1 0 (advectStep 1 0 (16 / 1000) 1 (9 / 10) (vCex, dCex)).2
      > totalDensity 1 0 dCex := by
  show totalDensity 1 0 (advectD 1 0 (16 / 1000) (9 / 10) vCex dCex)
      > totalDensity 1 0 dCex
  have e0 : advectD 1 0 (16 / 1000) (9 / 10) vCex dCex 0 0 = 9 / 10 := by
    unfold advectD
    norm_num [vCex]
    rw [bilin_at_zero]
    norm_num [dCex]
  have e1 : advectD 1 0 (16 / 1000) (9 / 10) vCex dCex 1 0 = 9 / 10 := by
    unfold advectD
    norm_num [vCex]
    rw [bilin_at_zero]
    norm_num [dCex]
  unfold totalDensity
  rw [Fin.sum_univ_two, Fin.sum_univ_one, Fin.sum_univ_one,
    Fin.sum_univ_two, Fin.sum_univ_one, Fin.sum_univ_one,
    e0, e1, show dCex 0 0 = 1 from rfl, show dCex 1 0 = 0 from rfl]
  norm_num

/-- C9 (amended): repeated advection-only steps (no brush) with
`0 ≤ ink_decay ≤ 1` produce a monotonically non-increasing maximum
density magnitude — after `n` steps every cell is bounded by
`ink_decay ^ n` times the initial uniform bound, and that bound itself is
non-increasing in `n` (the total density sum, by contrast, can grow when
the flow concentrates mass, as the counterexample shows). -/
theorem advect_density_sup_contraction (w h : ℕ) (dt vdec idec M : ℚ)
    (s : (Fin (w + 1) → Fin (h + 1) → ℚ × ℚ) × (Fin (w + 1) → Fin (h + 1) → ℚ))
    (hM : ∀ x y, |s.2 x y| ≤ M) (h0 : 0 ≤ idec) (h1 : idec ≤ 1) (n : ℕ) :
    (∀ x y, |((advectStep w h dt vdec idec)^[n] s).2 x y| ≤ idec ^ n * M)
      ∧ idec ^ (n + 1) * M ≤ idec ^ n * M := by
  have hMnn : 0 ≤ M := le_trans (abs_nonneg _) (hM 0 0)
  refine ⟨advect_iter_bound w h dt vdec idec h0 n M s hM, ?_⟩
  exact mul_le_mul_of_nonneg_right (pow_le_pow_of_le_one h0 h1 (Nat.le_succ n)) hMnn

/-- C9 witness on a 1 by 1 grid with density 1, zero velocity and
`ink_decay = 1/2`. -/
theorem advect_density_sup_contraction_w :
    (∀ x y : Fin 1, |vdCex.2 x y| ≤ 1) ∧ (0 : ℚ) ≤ 1 / 2 ∧ (1 / 2 : ℚ) ≤ 1
      ∧ ((∀ x y, |((advectStep 0 0 0 1 (1 / 2))^[1] vdCex).2 x y| ≤ (1 / 2 : ℚ) ^ 1 * 1)
          ∧ (1 / 2 : ℚ) ^ (1 + 1) * 1 ≤ (1 / 2 : ℚ) ^ 1 * 1) :=
  ⟨fun x y => by simp [vdCex], by norm_num, by norm_num,
   advect_density_sup_contraction 0 0 0 1 (1 / 2) 1 vdCex
     (fun x y => by simp [vdCex]) (by norm_num) (by norm_num) 1⟩

end FluidSimPaint
